import Mathlib

/-!
Verification of the `BrowserPool` resource pool (`src/unnamed/part_000`).

The pool manages concurrent Puppeteer page leases: admission control
(`acquire`), a bounded FIFO wait queue, per-lease timeout auto-kill,
wait-time telemetry and graceful shutdown.  We embed the pool state and
its operations as pure Lean functions (state passing); JS numbers that
only ever hold integers become `Nat`/`Int`, real-valued arithmetic
(`_estimateWaitTime`, averages) becomes `ℚ`.
-/

namespace BrowserPool

/-- Configuration fixed at construction: `maxConcurrent`, `maxQueueSize`,
`pageTimeout` (the lease timeout in ms). -/
structure PoolConfig where
  maxConcurrent : Nat
  maxQueueSize : Nat
  pageTimeout : Nat
deriving DecidableEq, Repr

/-- A queued pending request: `{ resolve, reject, enqueueTime }` in the
source; the resolve/reject callbacks are identified by `id`. -/
structure Entry where
  id : Nat
  enqueueTime : Nat
deriving DecidableEq, Repr

/-- A rejection surfaced by the pool (`PoolError` in the source):
either "Server is shutting down" (Unavailable) or "Queue full"
(ResourceExhausted, carrying `estimatedWaitMs`). Both carry HTTP 503. -/
inductive PoolRejection where
  | unavailable (statusCode : Nat)
  | queueFull (statusCode : Nat) (estimatedWaitMs : ℚ)
deriving DecidableEq

/-- The outcome of a single `acquire()` call. -/
inductive AcquireResult where
  | granted
  | queued
  | rejected (r : PoolRejection)
deriving DecidableEq

/-- The mutable pool state: `activeRequests` is modelled as `Int`
because the source decrements it unconditionally in `release`. -/
structure PoolState where
  activeRequests : Int
  queue : List Entry
  completedWaitTimes : List Nat
  totalProcessed : Nat
  totalTimedOut : Nat
  shuttingDown : Bool
deriving DecidableEq, Repr

/-- The state of a freshly constructed pool. -/
def initState : PoolState :=
  { activeRequests := 0
    queue := []
    completedWaitTimes := []
    totalProcessed := 0
    totalTimedOut := 0
    shuttingDown := false }

/-- `this.maxWaitTimeSamples = 100`. -/
def maxWaitTimeSamples : Nat := 100

/-- `this.completedWaitTimes.reduce((a, b) => a + b, 0)` — a left fold
with initial accumulator 0, as in the source (the samples are integral
millisecond counts, so the fold is exact). -/
def sumFoldl (l : List Nat) : ℚ :=
  ((l.foldl (fun a b => a + b) 0 : Nat) : ℚ)

/-- `_estimateWaitTime()`: if no samples,
`(queue.length / maxConcurrent) * (pageTimeout / 2)`; else
`avg * (queue.length / maxConcurrent + 1)` where `avg` is the reduce-sum
divided by the sample count. -/
def estimateWaitTime (cfg : PoolConfig) (s : PoolState) : ℚ :=
  if s.completedWaitTimes.length = 0 then
    ((s.queue.length : ℚ) / (cfg.maxConcurrent : ℚ)) * ((cfg.pageTimeout : ℚ) / 2)
  else
    (sumFoldl s.completedWaitTimes / (s.completedWaitTimes.length : ℚ)) *
      ((s.queue.length : ℚ) / (cfg.maxConcurrent : ℚ) + 1)

/-- JavaScript `Math.round`: nearest integer, ties toward `+∞`. -/
def roundJs (q : ℚ) : Int := ⌊q + 1 / 2⌋

/-- The `avgWaitMs` getter: 0 when no samples, else
`Math.round(reduce-sum / count)`. -/
def avgWaitMs (s : PoolState) : Int :=
  if s.completedWaitTimes.length = 0 then 0
  else roundJs (sumFoldl s.completedWaitTimes / (s.completedWaitTimes.length : ℚ))

/-- `_recordWaitTime(ms)`: push onto the rolling window, shift the
oldest sample out when the window exceeds `maxWaitTimeSamples`. -/
def recordWaitTime (ms : Nat) (s : PoolState) : PoolState :=
  { s with completedWaitTimes :=
      if maxWaitTimeSamples < (s.completedWaitTimes ++ [ms]).length then
        (s.completedWaitTimes ++ [ms]).drop 1
      else s.completedWaitTimes ++ [ms] }

/-- `_processQueue()`: return early when the queue is empty or capacity
is saturated; otherwise shift the head entry, record its wait time, and
run the grant path (`_createPage` increments `activeRequests`
synchronously). The promoted entry, if any, is returned alongside the
new state. -/
def processQueue (cfg : PoolConfig) (now : Nat) (s : PoolState) :
    Option Entry × PoolState :=
  match s.queue with
  | [] => (none, s)
  | e :: rest =>
    if (cfg.maxConcurrent : Int) ≤ s.activeRequests then (none, s)
    else
      (some e,
       { recordWaitTime (now - e.enqueueTime) { s with queue := rest } with
           activeRequests := s.activeRequests + 1 })

/-- `acquire()`: reject when shutting down; grant (reserving capacity
synchronously) when below `maxConcurrent`; reject with a wait estimate
when the queue is full; otherwise enqueue at the tail. -/
def acquire (cfg : PoolConfig) (e : Entry) (s : PoolState) :
    AcquireResult × PoolState :=
  if s.shuttingDown then
    (.rejected (.unavailable 503), s)
  else if s.activeRequests < (cfg.maxConcurrent : Int) then
    (.granted, { s with activeRequests := s.activeRequests + 1 })
  else if cfg.maxQueueSize ≤ s.queue.length then
    (.rejected (.queueFull 503 (estimateWaitTime cfg s)), s)
  else
    (.queued, { s with queue := s.queue ++ [e] })

/-- The `release` closure handed out with every lease: clear the timer,
close the page, decrement `activeRequests`, increment `totalProcessed`,
then `_processQueue()`. The source performs these steps unconditionally
on every call. -/
def releaseStep (cfg : PoolConfig) (now : Nat) (s : PoolState) : PoolState :=
  (processQueue cfg now
    { s with
        activeRequests := s.activeRequests - 1
        totalProcessed := s.totalProcessed + 1 }).2

/-- The `catch` branch of `_createPage`: on resource-creation failure the
reservation is rolled back and the queue is processed. -/
def createFailStep (cfg : PoolConfig) (now : Nat) (s : PoolState) : PoolState :=
  (processQueue cfg now { s with activeRequests := s.activeRequests - 1 }).2

/-- The `setTimeout` watchdog body (lease-timeout expiry): log, increment
`totalTimedOut`, force-close the page. It touches no other pool state. -/
def timerExpire (s : PoolState) : PoolState :=
  { s with totalTimedOut := s.totalTimedOut + 1 }

/-- The synchronous prefix of `shutdown()`: set `shuttingDown`, then
shift-and-reject every queued entry with `PoolError('Server is shutting
down', 503)`. Returns the rejection list alongside the new state. -/
def shutdownSync (s : PoolState) : List (Entry × PoolRejection) × PoolState :=
  (s.queue.map (fun e => (e, PoolRejection.unavailable 503)),
   { s with shuttingDown := true, queue := [] })

/-- The drain loop of `shutdown()`: poll every 200 ms while
`activeRequests > 0` and elapsed time is below the deadline. `f k` is
the active count observed at the k-th poll; `fuel` bounds the recursion;
the result is the total time waited. -/
def drainGo (f : Nat → Int) (timeout : Nat) : Nat → Nat → Nat
  | 0, elapsed => elapsed
  | fuel + 1, elapsed =>
    if 0 < f (elapsed / 200) ∧ elapsed < timeout then
      drainGo f timeout fuel (elapsed + 200)
    else elapsed

/-- Total time the drain loop of `shutdown()` waits, with deadline
`timeout = pageTimeout + 5000`. -/
def drainWait (f : Nat → Int) (timeout : Nat) : Nat :=
  drainGo f timeout (timeout / 200 + 1) 0

/-- JavaScript `a || b` on an optional numeric value: 0 (and absence)
are falsy and fall through to the alternative. -/
def jsOr (a : Option Nat) (b : Nat) : Nat :=
  match a with
  | some v => if v = 0 then b else v
  | none => b

/-- One constructor field:
`parseInt(options.x || process.env.X || default)`. -/
def configField (opt envVar : Option Nat) (dflt : Nat) : Nat :=
  jsOr opt (jsOr envVar dflt)

/-- The constructor option object (absent fields are `none`). -/
structure PoolOptions where
  maxConcurrent : Option Nat
  maxQueueSize : Option Nat
  pageTimeout : Option Nat

/-- The environment variables read by the constructor. -/
structure EnvVars where
  maxConcurrentEnv : Option Nat
  maxQueueSizeEnv : Option Nat
  pageTimeoutEnv : Option Nat

/-- The `BrowserPool` constructor's configuration computation, with
defaults `maxConcurrent=3`, `maxQueueSize=50`, `pageTimeout=30000`. -/
def mkConfig (o : PoolOptions) (env : EnvVars) : PoolConfig :=
  { maxConcurrent := configField o.maxConcurrent env.maxConcurrentEnv 3
    maxQueueSize := configField o.maxQueueSize env.maxQueueSizeEnv 50
    pageTimeout := configField o.pageTimeout env.pageTimeoutEnv 30000 }

/-- Spec-side definition (§4.3): the arithmetic mean of the durations
currently in the wait-sample window (0 on the empty window, since in `ℚ`
division by zero yields 0). -/
def specMean (s : PoolState) : ℚ :=
  (s.completedWaitTimes.map fun n : Nat => (n : ℚ)).sum / (s.completedWaitTimes.length : ℚ)

/-- Spec-side definition (§4.3): `estimateWaitMs()` is
`(queueDepth / maxConcurrent) * (leaseTimeoutMs / 2)` on an empty
window, else `average * (queueDepth / maxConcurrent + 1)`. -/
def specEstimateWaitMs (cfg : PoolConfig) (s : PoolState) : ℚ :=
  if s.completedWaitTimes = [] then
    ((s.queue.length : ℚ) / (cfg.maxConcurrent : ℚ)) * ((cfg.pageTimeout : ℚ) / 2)
  else
    specMean s * ((s.queue.length : ℚ) / (cfg.maxConcurrent : ℚ) + 1)

/-- A pool with one slot and the default queue bound. -/
def cfgA : PoolConfig := ⟨1, 50, 30000⟩

/-- A pool with one slot and a zero-length queue. -/
def cfgB : PoolConfig := ⟨1, 0, 30000⟩

/-- A concrete pending request. -/
def entryA : Entry := ⟨1, 0⟩

/-- A second concrete pending request. -/
def entryB : Entry := ⟨2, 0⟩

/-- One lease granted, a second request queued behind it (reached from
`initState` by two `acquire` calls against `cfgA`). -/
def sHeldQueued : PoolState := (acquire cfgA entryB (acquire cfgA entryA initState).2).2

/-- A state whose queue holds two waiting entries. -/
def sTwoQueued : PoolState := { initState with queue := [entryA, entryB] }

/-- A state whose wait-sample window holds the durations 1 ms and 2 ms. -/
def sTwoSamples : PoolState := { initState with completedWaitTimes := [1, 2] }

/-- The pool invariant: `activeRequests` within `[0, maxConcurrent]`,
the queue within its bound, and an empty queue once shutdown begins. -/
def Inv (cfg : PoolConfig) (s : PoolState) : Prop :=
  0 ≤ s.activeRequests ∧ s.activeRequests ≤ (cfg.maxConcurrent : Int) ∧
    s.queue.length ≤ cfg.maxQueueSize ∧ (s.shuttingDown = true → s.queue = [])

/-- One logical atomic pool transition, as serialized by the
single-threaded runtime: an `acquire()` call (any branch), a first
`release()` of a held lease, a creation-failure rollback, an internal
queue promotion, a lease-timer expiry, or the synchronous part of
`shutdown()`. `release`/`createFail` require a held lease
(`0 < activeRequests`): each lease is released at most once. -/
inductive Step (cfg : PoolConfig) : PoolState → PoolState → Prop where
  | acquireStep (e : Entry) (s : PoolState) : Step cfg s (acquire cfg e s).2
  | releaseHeld (now : Nat) (s : PoolState) :
      0 < s.activeRequests → Step cfg s (releaseStep cfg now s)
  | createFail (now : Nat) (s : PoolState) :
      0 < s.activeRequests → Step cfg s (createFailStep cfg now s)
  | promote (now : Nat) (s : PoolState) : Step cfg s (processQueue cfg now s).2
  | expire (s : PoolState) : Step cfg s (timerExpire s)
  | shutdownStep (s : PoolState) : Step cfg s (shutdownSync s).2

/-- States reachable from a freshly constructed pool. -/
inductive Reachable (cfg : PoolConfig) : PoolState → Prop where
  | init : Reachable cfg initState
  | step {s t : PoolState} : Reachable cfg s → Step cfg s t → Reachable cfg t

lemma processQueue_inv (cfg : PoolConfig) (now : Nat) (s : PoolState) (h : Inv cfg s) :
    Inv cfg (processQueue cfg now s).2 := by
  obtain ⟨h0, h1, h2, h3⟩ := h
  cases hq : s.queue with
  | nil =>
    simp only [processQueue, hq]
    exact ⟨h0, h1, h2, h3⟩
  | cons e rest =>
    simp only [processQueue, hq]
    by_cases hc : (cfg.maxConcurrent : Int) ≤ s.activeRequests
    · rw [if_pos hc]
      exact ⟨h0, h1, h2, h3⟩
    · rw [if_neg hc]
      refine ⟨?_, ?_, ?_, ?_⟩
      · show 0 ≤ s.activeRequests + 1
        omega
      · show s.activeRequests + 1 ≤ (cfg.maxConcurrent : Int)
        omega
      · show (recordWaitTime (now - e.enqueueTime) { s with queue := rest }).queue.length ≤
          cfg.maxQueueSize
        have hr : (recordWaitTime (now - e.enqueueTime) { s with queue := rest }).queue = rest :=
          rfl
        rw [hr]
        have hlen : s.queue.length = rest.length + 1 := by rw [hq]; rfl
        omega
      · intro hh
        have hsd : s.shuttingDown = true := hh
        have hnil := h3 hsd
        rw [hq] at hnil
        exact absurd hnil (List.cons_ne_nil e rest)

lemma acquire_inv (cfg : PoolConfig) (e : Entry) (s : PoolState) (h : Inv cfg s) :
    Inv cfg (acquire cfg e s).2 := by
  obtain ⟨h0, h1, h2, h3⟩ := h
  unfold acquire
  by_cases hsd : s.shuttingDown = true
  · rw [if_pos hsd]
    exact ⟨h0, h1, h2, h3⟩
  · rw [if_neg hsd]
    by_cases hact : s.activeRequests < (cfg.maxConcurrent : Int)
    · rw [if_pos hact]
      refine ⟨?_, ?_, h2, fun hh => absurd hh hsd⟩
      · show 0 ≤ s.activeRequests + 1
        omega
      · show s.activeRequests + 1 ≤ (cfg.maxConcurrent : Int)
        omega
    · rw [if_neg hact]
      by_cases hfull : cfg.maxQueueSize ≤ s.queue.length
      · rw [if_pos hfull]
        exact ⟨h0, h1, h2, h3⟩
      · rw [if_neg hfull]
        refine ⟨h0, h1, ?_, fun hh => absurd hh hsd⟩
        show (s.queue ++ [e]).length ≤ cfg.maxQueueSize
        rw [List.length_append, List.length_singleton]
        omega

lemma step_inv (cfg : PoolConfig) {s t : PoolState} (h : Inv cfg s)
    (hs : Step cfg s t) : Inv cfg t := by
  obtain ⟨h0, h1, h2, h3⟩ := h
  cases hs with
  | acquireStep e s => exact acquire_inv cfg e s ⟨h0, h1, h2, h3⟩
  | releaseHeld now s hpos =>
    refine processQueue_inv cfg now _ ⟨?_, ?_, h2, h3⟩
    · show 0 ≤ s.activeRequests - 1
      omega
    · show s.activeRequests - 1 ≤ (cfg.maxConcurrent : Int)
      omega
  | createFail now s hpos =>
    refine processQueue_inv cfg now _ ⟨?_, ?_, h2, h3⟩
    · show 0 ≤ s.activeRequests - 1
      omega
    · show s.activeRequests - 1 ≤ (cfg.maxConcurrent : Int)
      omega
  | promote now s => exact processQueue_inv cfg now s ⟨h0, h1, h2, h3⟩
  | expire s => exact ⟨h0, h1, h2, h3⟩
  | shutdownStep s => exact ⟨h0, h1, Nat.zero_le _, fun _ => rfl⟩

lemma reachable_inv (cfg : PoolConfig) {s : PoolState} (h : Reachable cfg s) :
    Inv cfg s := by
  induction h with
  | init => exact ⟨le_refl 0, Int.natCast_nonneg _, Nat.zero_le _, fun _ => rfl⟩
  | step _ hs ih => exact step_inv cfg ih hs

/-- Claim C3 (amended): starting from a freshly constructed pool, every
sequence of pool operations in which `release` (and the creation-failure
rollback) is applied only while a lease is held (`0 < activeRequests`,
i.e. each lease is released at most once) keeps the state within
`0 ≤ activeCount ≤ maxConcurrent` and `0 ≤ queue length ≤ maxQueueSize`. -/
theorem C3_invariant_bounds (cfg : PoolConfig) (s : PoolState)
    (h : Reachable cfg s) :
    0 ≤ s.activeRequests ∧ s.activeRequests ≤ (cfg.maxConcurrent : Int) ∧
      s.queue.length ≤ cfg.maxQueueSize := by
  obtain ⟨h0, h1, h2, _⟩ := reachable_inv cfg h
  exact ⟨h0, h1, h2⟩

/-- Witness for C3: the bounds hold at the concrete reachable state
obtained by one granting `acquire` on a fresh one-slot pool. -/
theorem C3_invariant_bounds_witness :
    0 ≤ (acquire cfgA entryA initState).2.activeRequests ∧
      (acquire cfgA entryA initState).2.activeRequests ≤ (cfgA.maxConcurrent : Int) ∧
      (acquire cfgA entryA initState).2.queue.length ≤ cfgA.maxQueueSize :=
  C3_invariant_bounds cfgA _ (Reachable.step Reachable.init (Step.acquireStep entryA initState))

/-- Counterexample to C3 as stated: the operation sequence
acquire, release, release (the code accepts a second `release()` call on
the same lease and decrements unconditionally) drives `activeRequests`
to −1, violating `0 ≤ activeCount`. -/
theorem C3_counterexample :
    (releaseStep cfgA 0 (releaseStep cfgA 0 (acquire cfgA entryA initState).2)).activeRequests < 0 := by
  decide

/-- Claim C1 (amended): when a lease timer expires while the lease is
still held, the watchdog increments `totalTimedOut` by exactly 1 and
force-closes the page, but it leaves `activeRequests`, the queue, and
the other counters unchanged — the decrement and the promotion of the
queue head happen only when the caller later invokes `release()`. -/
theorem C1_expiry_counts_only (s : PoolState) :
    (timerExpire s).totalTimedOut = s.totalTimedOut + 1 ∧
      (timerExpire s).activeRequests = s.activeRequests ∧
      (timerExpire s).queue = s.queue ∧
      (timerExpire s).totalProcessed = s.totalProcessed ∧
      (timerExpire s).completedWaitTimes = s.completedWaitTimes ∧
      (timerExpire s).shuttingDown = s.shuttingDown :=
  ⟨rfl, rfl, rfl, rfl, rfl, rfl⟩

/-- Counterexample to C1 as stated: in the concrete reachable state with
one held lease and one queued entry, timer expiry increments
`totalTimedOut` but does not decrement `activeRequests` (it stays 1) and
does not promote the waiting queue head (the queue still holds it). -/
theorem C1_counterexample :
    (timerExpire sHeldQueued).totalTimedOut = sHeldQueued.totalTimedOut + 1 ∧
      (timerExpire sHeldQueued).activeRequests ≠ sHeldQueued.activeRequests - 1 ∧
      (timerExpire sHeldQueued).queue = sHeldQueued.queue ∧
      sHeldQueued.queue = [entryB] := by
  decide

/-- Claim C2 (amended): `release()` is not idempotent. On a state with
an empty queue, a second call to the release closure decrements
`activeRequests` a second time (to `activeRequests − 2`, possibly below
zero) and increments `totalProcessed` a second time. -/
theorem C2_double_release (cfg : PoolConfig) (n1 n2 : Nat) (s : PoolState)
    (h : s.queue = []) :
    (releaseStep cfg n2 (releaseStep cfg n1 s)).totalProcessed = s.totalProcessed + 2 ∧
      (releaseStep cfg n2 (releaseStep cfg n1 s)).activeRequests = s.activeRequests - 2 := by
  simp only [releaseStep, processQueue, h]
  refine ⟨by trivial, ?_⟩
  show s.activeRequests - 1 - 1 = s.activeRequests - 2
  omega

/-- Witness for C2 (amended): double release after one granting acquire
on a fresh pool yields `totalProcessed = 2` and `activeRequests = −1`. -/
theorem C2_double_release_witness :
    (releaseStep cfgA 0 (releaseStep cfgA 0 (acquire cfgA entryA initState).2)).totalProcessed =
        (acquire cfgA entryA initState).2.totalProcessed + 2 ∧
      (releaseStep cfgA 0 (releaseStep cfgA 0 (acquire cfgA entryA initState).2)).activeRequests =
        (acquire cfgA entryA initState).2.activeRequests - 2 :=
  C2_double_release cfgA 0 0 _ (by decide)

/-- Counterexample to C2 as stated: on the concrete lease granted by a
fresh one-slot pool, calling the release closure twice leaves the pool
in a different observable state than calling it once
(`totalProcessed` 2 vs 1, `activeRequests` −1 vs 0). -/
theorem C2_counterexample :
    releaseStep cfgA 0 (releaseStep cfgA 0 (acquire cfgA entryA initState).2) ≠
      releaseStep cfgA 0 (acquire cfgA entryA initState).2 := by
  decide

/-- Claim C4: once `shuttingDown` is set in a reachable state, no lease
is granted from any path: every `acquire()` rejects with
Unavailable (503) without changing the state, the queue is already empty
(shutdown rejected and cleared it, and nothing can enqueue afterwards),
promotion grants nothing, and `shutdown()` itself rejects every queued
entry with Unavailable (503) and clears the queue. -/
theorem C4_shutdown_no_lease (cfg : PoolConfig) (s : PoolState)
    (hr : Reachable cfg s) (hsd : s.shuttingDown = true) :
    (∀ e, acquire cfg e s = (.rejected (.unavailable 503), s)) ∧
      s.queue = [] ∧
      (∀ now, processQueue cfg now s = (none, s)) ∧
      (∀ t : PoolState,
        (shutdownSync t).1 = t.queue.map (fun e => (e, PoolRejection.unavailable 503)) ∧
          (shutdownSync t).2.queue = []) := by
  have hq : s.queue = [] := (reachable_inv cfg hr).2.2.2 hsd
  refine ⟨?_, hq, ?_, fun t => ⟨rfl, rfl⟩⟩
  · intro e
    simp [acquire, hsd]
  · intro now
    simp [processQueue, hq]

/-- Witness for C4: in the state reached by shutting down a fresh pool,
a concrete `acquire` is rejected with Unavailable and the queue is
empty. -/
theorem C4_shutdown_no_lease_witness :
    acquire cfgA entryA (shutdownSync initState).2 =
        (.rejected (.unavailable 503), (shutdownSync initState).2) ∧
      (shutdownSync initState).2.queue = [] :=
  ⟨(C4_shutdown_no_lease cfgA _
      (Reachable.step Reachable.init (Step.shutdownStep initState)) rfl).1 entryA,
   (C4_shutdown_no_lease cfgA _
      (Reachable.step Reachable.init (Step.shutdownStep initState)) rfl).2.1⟩

/-- Claim C5: an `acquire()` arriving when the pool is not shutting
down, capacity is saturated, and the queue is at its bound fails
immediately with ResourceExhausted (503) carrying the estimated wait
time, leaving the state unchanged. -/
theorem C5_queue_full_reject (cfg : PoolConfig) (e : Entry) (s : PoolState)
    (h1 : s.shuttingDown = false)
    (h2 : (cfg.maxConcurrent : Int) ≤ s.activeRequests)
    (h3 : cfg.maxQueueSize ≤ s.queue.length) :
    acquire cfg e s = (.rejected (.queueFull 503 (estimateWaitTime cfg s)), s) := by
  simp [acquire, h1, not_lt.mpr h2, h3]

/-- Witness for C5: with `maxConcurrent = 1` and `maxQueueSize = 0`, the
first of two acquires on a fresh pool is granted and the second fails
immediately with ResourceExhausted. -/
theorem C5_queue_full_reject_witness :
    (acquire cfgB entryA initState).1 = .granted ∧
      acquire cfgB entryB (acquire cfgB entryA initState).2 =
        (.rejected (.queueFull 503 (estimateWaitTime cfgB (acquire cfgB entryA initState).2)),
         (acquire cfgB entryA initState).2) :=
  ⟨by decide, C5_queue_full_reject cfgB entryB _ (by decide) (by decide) (by decide)⟩

/-- Claim C6: promotion is strict FIFO. If entry `A` sits strictly
before entry `B` in the wait queue, a promotion step never grants `B`:
it either grants `A` (leaving the suffix behind `A`) or grants an even
earlier entry (or nothing), in which case `A` still precedes `B` in the
resulting queue. -/
theorem C6_fifo_promotion (cfg : PoolConfig) (now : Nat) (s : PoolState)
    (l1 l2 l3 : List Entry) (A B : Entry)
    (hq : s.queue = l1 ++ A :: (l2 ++ B :: l3)) (hAB : A ≠ B) (hB1 : B ∉ l1) :
    (processQueue cfg now s).1 ≠ some B ∧
      (((processQueue cfg now s).1 = some A ∧
          (processQueue cfg now s).2.queue = l2 ++ B :: l3) ∨
        ∃ m1, (processQueue cfg now s).2.queue = m1 ++ A :: (l2 ++ B :: l3)) := by
  cases l1 with
  | nil =>
    simp only [List.nil_append] at hq
    simp only [processQueue, hq]
    by_cases hc : (cfg.maxConcurrent : Int) ≤ s.activeRequests
    · rw [if_pos hc]
      exact ⟨by simp, Or.inr ⟨[], by simpa using hq⟩⟩
    · rw [if_neg hc]
      refine ⟨?_, Or.inl ⟨rfl, rfl⟩⟩
      simp [hAB]
  | cons x t =>
    have hq' : s.queue = x :: (t ++ A :: (l2 ++ B :: l3)) := by simpa using hq
    simp only [processQueue, hq']
    by_cases hc : (cfg.maxConcurrent : Int) ≤ s.activeRequests
    · rw [if_pos hc]
      exact ⟨by simp, Or.inr ⟨x :: t, by simpa using hq⟩⟩
    · rw [if_neg hc]
      have hxB : x ≠ B := fun hcontra => hB1 (hcontra ▸ List.mem_cons_self x t)
      refine ⟨?_, Or.inr ⟨t, rfl⟩⟩
      simp [hxB]

/-- Witness for C6: on a concrete queue `[entryA, entryB]` with a free
slot, the promotion grants `entryA`, not `entryB`. -/
theorem C6_fifo_promotion_witness :
    (processQueue cfgA 0 sTwoQueued).1 ≠ some entryB ∧
      (((processQueue cfgA 0 sTwoQueued).1 = some entryA ∧
          (processQueue cfgA 0 sTwoQueued).2.queue = [] ++ entryB :: []) ∨
        ∃ m1, (processQueue cfgA 0 sTwoQueued).2.queue = m1 ++ entryA :: ([] ++ entryB :: [])) :=
  C6_fifo_promotion cfgA 0 sTwoQueued [] [] [] entryA entryB (by decide) (by decide) (by decide)

lemma drainGo_lt (f : Nat → Int) (timeout : Nat) :
    ∀ fuel elapsed : Nat, elapsed < timeout + 200 →
      drainGo f timeout fuel elapsed < timeout + 200 := by
  intro fuel
  induction fuel with
  | zero =>
    intro elapsed h
    simpa [drainGo] using h
  | succ n ih =>
    intro elapsed h
    by_cases hc : 0 < f (elapsed / 200) ∧ elapsed < timeout
    · rw [drainGo, if_pos hc]
      exact ih (elapsed + 200) (by omega)
    · rw [drainGo, if_neg hc]
      exact h

/-- Claim C7: `shutdown()` rejects each of the K queued entries with
Unavailable (503) and clears the queue; when no lease is active at the
first poll the drain loop waits 0 ms (it resolves without waiting out
the grace period); and in general the total drain wait is bounded by
`pageTimeout + 5000` (the fixed grace period) plus one 200 ms poll. -/
theorem C7_shutdown_drain (cfg : PoolConfig) (s : PoolState) (f : Nat → Int) :
    (shutdownSync s).1 = s.queue.map (fun e => (e, PoolRejection.unavailable 503)) ∧
      (shutdownSync s).2 = { s with shuttingDown := true, queue := [] } ∧
      (f 0 ≤ 0 → drainWait f (cfg.pageTimeout + 5000) = 0) ∧
      drainWait f (cfg.pageTimeout + 5000) < cfg.pageTimeout + 5000 + 200 := by
  refine ⟨rfl, rfl, ?_, ?_⟩
  · intro hf
    have hcond : ¬(0 < f (0 / 200) ∧ 0 < cfg.pageTimeout + 5000) := by
      rw [Nat.zero_div]
      rintro ⟨ha, -⟩
      omega
    simp only [drainWait, drainGo]
    rw [if_neg hcond]
  · exact drainGo_lt f _ _ 0 (by omega)

/-- Witness for C7: shutting down with two queued entries and zero
active leases rejects both entries with Unavailable and the drain loop
waits 0 ms. -/
theorem C7_shutdown_drain_witness :
    (shutdownSync sTwoQueued).1 =
        sTwoQueued.queue.map (fun e => (e, PoolRejection.unavailable 503)) ∧
      drainWait (fun _ => (0 : Int)) (cfgA.pageTimeout + 5000) = 0 :=
  ⟨(C7_shutdown_drain cfgA sTwoQueued fun _ => (0 : Int)).1,
   (C7_shutdown_drain cfgA sTwoQueued fun _ => (0 : Int)).2.2.1 (by decide)⟩

lemma foldl_add_cast (l : List Nat) :
    ∀ a : Nat, ((l.foldl (fun x y => x + y) a : Nat) : ℚ) =
      (a : ℚ) + (l.map fun n : Nat => (n : ℚ)).sum := by
  induction l with
  | nil =>
    intro a
    simp
  | cons x xs ih =>
    intro a
    rw [List.foldl_cons, ih (a + x), List.map_cons, List.sum_cons]
    push_cast
    ring

lemma sumFoldl_eq (l : List Nat) : sumFoldl l = (l.map fun n : Nat => (n : ℚ)).sum := by
  simpa [sumFoldl] using foldl_add_cast l 0

/-- Claim C8: `_estimateWaitTime()` agrees with the spec formula: on an
empty window it is `(queueDepth / maxConcurrent) * (pageTimeout / 2)`,
and otherwise `average * (queueDepth / maxConcurrent + 1)` where
`average` is the arithmetic mean of the window. -/
theorem C8_estimate_matches_spec (cfg : PoolConfig) (s : PoolState) :
    estimateWaitTime cfg s = specEstimateWaitMs cfg s := by
  unfold estimateWaitTime specEstimateWaitMs specMean
  rw [sumFoldl_eq]
  by_cases h : s.completedWaitTimes = []
  · simp [h]
  · have hlen : ¬(s.completedWaitTimes.length = 0) := fun hh => h (List.length_eq_zero.mp hh)
    rw [if_neg hlen, if_neg h]

/-- Claim C9 (amended): `avgWaitMs` returns the arithmetic mean of the
wait-sample window rounded to the nearest integer (`Math.round`, ties
toward `+∞`), and 0 when the window is empty. -/
theorem C9_avg_is_rounded_mean (s : PoolState) :
    avgWaitMs s = if s.completedWaitTimes = [] then 0 else roundJs (specMean s) := by
  unfold avgWaitMs specMean
  rw [sumFoldl_eq]
  by_cases h : s.completedWaitTimes = []
  · simp [h]
  · have hlen : ¬(s.completedWaitTimes.length = 0) := fun hh => h (List.length_eq_zero.mp hh)
    rw [if_neg hlen, if_neg h]

/-- Counterexample to C9 as stated: with window `[1, 2]` the getter
returns 2 while the arithmetic mean is 3/2 — the returned value is not
the mean. -/
theorem C9_counterexample :
    (avgWaitMs sTwoSamples : ℚ) ≠ specMean sTwoSamples ∧
      avgWaitMs sTwoSamples = 2 ∧ specMean sTwoSamples = 3 / 2 := by
  have h1 : avgWaitMs sTwoSamples = 2 := by
    unfold avgWaitMs
    rw [sumFoldl_eq]
    norm_num [sTwoSamples, initState, roundJs]
  have h2 : specMean sTwoSamples = 3 / 2 := by
    norm_num [specMean, sTwoSamples, initState]
  refine ⟨?_, h1, h2⟩
  rw [h1, h2]
  norm_num

/-- Claim C10: a constructor option explicitly set to the falsy value 0
falls through (`options.x || env || default`): with no environment
variable set the default is used silently, so
`maxConcurrent=3, maxQueueSize=50, pageTimeout=30000` result and a
`maxQueueSize` of 0 cannot be configured through the options object. -/
theorem C10_zero_option_uses_default :
    (∀ d : Nat, configField (some 0) none d = d) ∧
      mkConfig ⟨some 0, some 0, some 0⟩ ⟨none, none, none⟩ = ⟨3, 50, 30000⟩ :=
  ⟨fun _ => rfl, rfl⟩

end BrowserPool
